import Mathlib

/-!
Shallow embedding of the exam-system backend (backend/models.py and the
answers-payload guard of backend/routes.py) and proofs of the spec claims.

Modelling conventions:
* Machine strings are Lean `String`s; Python character classes are modelled
  as explicit predicates on `Char` mirroring the regexes in the source.
* Python floats are modelled as rationals `ℚ`; `round(x, 2)` is modelled by
  `round2` (round half away from the floor at the second decimal).  All
  numeric values exercised by the claims are exact two-decimal values, where
  Python float rounding and the rational model agree.
* The SQLite database is modelled as an explicit state: a list of question
  rows, a list of result rows, the AUTOINCREMENT counter and a logical clock
  standing for `datetime.utcnow()` (ISO timestamps are monotone, so a `Nat`
  clock preserves their ordering).  Rows are kept in insertion (= id) order,
  so `ORDER BY id` is the identity and `SELECT ... LIMIT 1` is `List.find?`.
* `json.dumps`/`json.loads` of the details document is modelled as the
  identity embedding of the structured document (the `Details` value); the
  `details_json` column stores that document directly.
* Python `dict`s (insertion ordered, unique keys) are modelled as
  association lists updated in place (`dictInc` / `dictSet`).
-/

set_option maxRecDepth 4000

namespace ExamSystem

/-! ### Identity normalisation (models.py lines 87–121) -/

/-- The `str.maketrans` table `_PERSIAN_TO_ASCII_DIGITS`: Extended
Arabic-Indic digits U+06F0–U+06F9 and Arabic-Indic digits U+0660–U+0669 map
to ASCII `0`–`9`; every other character is unchanged. -/
def persianToAsciiDigit (c : Char) : Char :=
  if 0x6F0 ≤ c.toNat ∧ c.toNat ≤ 0x6F9 then Char.ofNat (c.toNat - 0x6F0 + 48)
  else if 0x660 ≤ c.toNat ∧ c.toNat ≤ 0x669 then Char.ofNat (c.toNat - 0x660 + 48)
  else c

/-- `normalize_phone`: translate digits to ASCII, then drop every non-digit
(`re.sub(r"\D", "", s)`; after the translation the digits of the modelled
alphabet are exactly the ASCII digits). -/
def normalize_phone (phone_raw : String) : String :=
  String.mk ((phone_raw.data.map persianToAsciiDigit).filter Char.isDigit)

/-- The character set matched by Python's `\s` on `str` patterns (ASCII
whitespace, the C0 separators, NEL, NBSP and the Unicode space characters). -/
def pythonWhitespace (c : Char) : Bool :=
  c = ' ' || c = '\t' || c = '\n' || c = '\r' || c = '\x0b' || c = '\x0c' ||
  (0x1c ≤ c.toNat && c.toNat ≤ 0x1f) || c.toNat = 0x85 || c.toNat = 0xa0 ||
  c.toNat = 0x1680 || (0x2000 ≤ c.toNat && c.toNat ≤ 0x200a) ||
  c.toNat = 0x2028 || c.toNat = 0x2029 || c.toNat = 0x202f ||
  c.toNat = 0x205f || c.toNat = 0x3000

/-- Split a character list at whitespace (each maximal whitespace run ends a
chunk; empty chunks are produced at runs and at the ends). -/
def splitWsAux : List Char → List Char → List (List Char)
  | [], acc => [acc.reverse]
  | c :: rest, acc =>
    if pythonWhitespace c then acc.reverse :: splitWsAux rest []
    else splitWsAux rest (c :: acc)

/-- Join words with single spaces. -/
def joinWords : List (List Char) → List Char
  | [] => []
  | [w] => w
  | w :: ws => w ++ ' ' :: joinWords ws

/-- `normalize_name`: translate digits to ASCII, collapse whitespace runs to
a single space and strip the ends (`re.sub(r"\s+", " ", t).strip()`),
modelled by splitting on whitespace, dropping the empty chunks and rejoining
with single spaces. -/
def normalize_name (text : String) : String :=
  if text = "" then ""
  else
    String.mk
      (joinWords
        ((splitWsAux (text.data.map persianToAsciiDigit) []).filter (fun w => w ≠ [])))

/-- Python `str.strip()`: drop leading and trailing whitespace. -/
def pyStrip (s : String) : String :=
  String.mk (((s.data.dropWhile pythonWhitespace).reverse.dropWhile pythonWhitespace).reverse)

/-- Python `str.upper()` on the ASCII-letter alphabet of the option letters
(Persian letters are caseless). -/
def pyUpper (s : String) : String := String.mk (s.data.map Char.toUpper)

/-- `is_persian_name_strict`: `False` on the empty string, otherwise
`re.fullmatch(r"^[؀-ۿ\s‌]+$", s)`: every character must lie
in the Arabic block U+0600–U+06FF, be `\s` whitespace, or be the zero-width
non-joiner U+200C. -/
def is_persian_name_strict (s : String) : Bool :=
  s ≠ "" &&
    s.data.all (fun c =>
      (0x600 ≤ c.toNat && c.toNat ≤ 0x6FF) || pythonWhitespace c || c.toNat = 0x200c)

/-! ### Data model (the `questions` and `results` tables) -/

/-- A row of the `questions` table. -/
structure Question where
  id : Nat
  exam_id : Nat
  text : String
  option_a : String
  option_b : String
  option_c : String
  option_d : String
  correct : String
  topic : String
deriving DecidableEq

/-- One entry of the per-question detail map built by `save_result`. -/
structure QDetail where
  text : String
  your_answer : String
  correct : String
  is_correct : Bool
deriving DecidableEq

/-- The structured details document
`{"per_topic": ..., "per_question": ...}` stored in `details_json`. -/
structure Details where
  per_topic : List (String × ℚ)
  per_question : List (String × QDetail)
deriving DecidableEq

/-- A row of the `results` table.  `created_at` is the logical clock value at
insertion time (standing for the monotone ISO timestamp). -/
structure ResultRow where
  id : Nat
  exam_id : Nat
  student_name : String
  phone : String
  province : String
  score : ℚ
  tazr : ℚ
  rank_national : Nat
  rank_provincial : Nat
  details_json : Details
  created_at : Nat
deriving DecidableEq

/-- The database state: question rows, result rows (in insertion order, so
ids are increasing), the AUTOINCREMENT counter and the logical clock. -/
structure DBState where
  questions : List Question
  results : List ResultRow
  next_id : Nat
  now : Nat
deriving DecidableEq

/-- `get_exam_questions`: `SELECT * FROM questions WHERE exam_id = ? ORDER BY
id` (rows are kept in id order, so the filter preserves the order). -/
def get_exam_questions (st : DBState) (exam_id : Nat) : List Question :=
  st.questions.filter (fun q => q.exam_id == exam_id)

/-! ### Ordered-dict helpers -/

/-- `m.get(k, d)` on a Python dict modelled as an association list. -/
def lookupD {α : Type} (m : List (String × α)) (k : String) (d : α) : α :=
  ((m.find? (fun p => p.1 == k)).map (fun p => p.2)).getD d

/-- `m[k] = m.get(k, 0) + 1`: increment in place if the key is present
(keeping insertion order), otherwise append the new key with value 1. -/
def dictInc (m : List (String × Nat)) (k : String) : List (String × Nat) :=
  if m.any (fun p => p.1 == k) then
    m.map (fun p => if p.1 == k then (p.1, p.2 + 1) else p)
  else m ++ [(k, 1)]

/-- `m[k] = v`: overwrite in place if the key is present, else append. -/
def dictSet {α : Type} (m : List (String × α)) (k : String) (v : α) :
    List (String × α) :=
  if m.any (fun p => p.1 == k) then
    m.map (fun p => if p.1 == k then (p.1, v) else p)
  else m ++ [(k, v)]

/-! ### Scoring (models.py lines 358–397) -/

/-- Python `round(x, 2)` modelled on rationals: round `100 * x` to the
nearest integer and divide by 100.  (Python rounds halves to even; the model
rounds halves up.  No claim exercises an exact half at the second decimal,
where the two differ.) -/
def round2 (q : ℚ) : ℚ := ((round (q * 100) : ℤ) : ℚ) / 100

/-- The accumulators of the scoring loop in `save_result`. -/
structure ScanAcc where
  correct_count : Nat
  wrong_count : Nat
  topic_totals : List (String × Nat)
  topic_correct : List (String × Nat)
  details_list : List (String × QDetail)
deriving DecidableEq

/-- `(answers.get(qid) or "").strip().upper()` for a question: the submitted
letter, trimmed and upper-cased (missing or blank answers become `""`). -/
def yourAnswer (answers : List (String × String)) (q : Question) : String :=
  pyUpper (pyStrip (lookupD answers (toString q.id) ""))

/-- `(q.get('correct') or "").strip().upper()`. -/
def correctAnswer (q : Question) : String := pyUpper (pyStrip q.correct)

/-- `is_correct = (your != "" and your == correct)`. -/
def isCorrectAnswer (answers : List (String × String)) (q : Question) : Bool :=
  yourAnswer answers q ≠ "" && yourAnswer answers q == correctAnswer q

/-- A wrong answer: the `elif your:` branch, i.e. a non-blank submitted
letter that is not the correct one. -/
def isWrongAnswer (answers : List (String × String)) (q : Question) : Bool :=
  !isCorrectAnswer answers q && yourAnswer answers q ≠ ""

/-- One iteration of the `for q in questions:` scoring loop. -/
def scanStep (answers : List (String × String)) (acc : ScanAcc) (q : Question) :
    ScanAcc :=
  let qid := toString q.id
  let your := yourAnswer answers q
  let correct := correctAnswer q
  let is_correct := isCorrectAnswer answers q
  { correct_count := if is_correct then acc.correct_count + 1 else acc.correct_count
    wrong_count :=
      if is_correct then acc.wrong_count
      else if your ≠ "" then acc.wrong_count + 1 else acc.wrong_count
    topic_totals := dictInc acc.topic_totals (if q.topic = "" then "نامشخص" else q.topic)
    topic_correct :=
      if is_correct then dictInc acc.topic_correct (if q.topic = "" then "نامشخص" else q.topic)
      else acc.topic_correct
    details_list :=
      dictSet acc.details_list qid
        { text := q.text, your_answer := your, correct := correct, is_correct := is_correct } }

/-- The whole scoring loop over the question list. -/
def scanQuestions (questions : List Question) (answers : List (String × String)) :
    ScanAcc :=
  questions.foldl (scanStep answers) ⟨0, 0, [], [], []⟩

/-- `penalty = wrong_count // 3`. -/
def penaltyOf (questions : List Question) (answers : List (String × String)) : Nat :=
  (scanQuestions questions answers).wrong_count / 3

/-- `adjusted_correct = max(correct_count - penalty, 0)`. -/
def adjustedCorrect (questions : List Question) (answers : List (String × String)) : Int :=
  max (((scanQuestions questions answers).correct_count : Int) - (penaltyOf questions answers : Int)) 0

/-- The outcome of the scoring computation. -/
structure Scored where
  score_percent : ℚ
  topic_percent : List (String × ℚ)
  details_list : List (String × QDetail)
deriving DecidableEq

/-- The non-empty branch of the scoring code: run the loop, apply the
penalty, compute the rounded percentage and the per-topic percentages. -/
def scoreQuestions (questions : List Question) (answers : List (String × String)) :
    Scored :=
  let acc := scanQuestions questions answers
  let total := questions.length
  { score_percent :=
      if 0 < total then round2 (100 * (adjustedCorrect questions answers : ℚ) / (total : ℚ))
      else 0
    topic_percent :=
      acc.topic_totals.map (fun p =>
        (p.1, round2 (100 * ((lookupD acc.topic_correct p.1 0 : Nat) : ℚ) / (p.2 : ℚ))))
    details_list := acc.details_list }

/-- `save_result`'s score calculation including the `if not questions:`
zero-question branch. -/
def computeScored (st : DBState) (exam_id : Nat) (answers : List (String × String)) :
    Scored :=
  let questions := get_exam_questions st exam_id
  if questions.isEmpty then { score_percent := 0, topic_percent := [], details_list := [] }
  else scoreQuestions questions answers

/-! ### Rank recomputation (models.py lines 281–315)

`recalc_ranks_for_exam` reads `id, tazr, province` (and orders by
`tazr DESC, created_at ASC`) for the exam's rows, assigns competition ranks
nationally and per province, and writes them back with
`UPDATE results SET ... WHERE id = ?`.  Since `id` is the primary key, the
row updates are modelled as a single map over the result list that rewrites
the two rank fields of the exam's rows from the computed assignment. -/

/-- The projection of a result row that the rank computation reads. -/
structure RankKey where
  id : Nat
  tazr : ℚ
  created_at : Nat
  province : String
deriving DecidableEq

/-- Project a result row to the fields read by `recalc_ranks_for_exam`. -/
def projKey (r : ResultRow) : RankKey :=
  { id := r.id, tazr := r.tazr, created_at := r.created_at, province := r.province }

/-- `SELECT id, tazr, province FROM results WHERE exam_id = ?` (with
`created_at` carried along for the ordering). -/
def rankData (db : List ResultRow) (exam_id : Nat) : List RankKey :=
  db.filterMap (fun r => if r.exam_id = exam_id then some (projKey r) else none)

/-- The `ORDER BY tazr DESC, created_at ASC` preorder. -/
def natOrder (a b : RankKey) : Prop :=
  b.tazr < a.tazr ∨ (a.tazr = b.tazr ∧ a.created_at ≤ b.created_at)

instance : DecidableRel natOrder := fun a b => by unfold natOrder; infer_instance

instance : IsTotal RankKey natOrder := by
  constructor
  intro a b
  rcases lt_trichotomy a.tazr b.tazr with h | h | h
  · exact Or.inr (Or.inl h)
  · rcases Nat.le_total a.created_at b.created_at with hc | hc
    · exact Or.inl (Or.inr ⟨h, hc⟩)
    · exact Or.inr (Or.inr ⟨h.symm, hc⟩)
  · exact Or.inl (Or.inl h)

instance : IsTrans RankKey natOrder := by
  constructor
  intro a b c hab hbc
  rcases hab with h1 | ⟨h1, h1c⟩
  · rcases hbc with h2 | ⟨h2, _⟩
    · exact Or.inl (h2.trans h1)
    · exact Or.inl (h2 ▸ h1)
  · rcases hbc with h2 | ⟨h2, h2c⟩
    · exact Or.inl (h1 ▸ h2)
    · exact Or.inr ⟨h1.trans h2, h1c.trans h2c⟩

/-- The `sorted(prov_rows, key=lambda x: (-x['tazr'], x['id']))` preorder:
tazr descending, then id ascending. -/
def provOrder (a b : RankKey) : Prop :=
  b.tazr < a.tazr ∨ (a.tazr = b.tazr ∧ a.id ≤ b.id)

instance : DecidableRel provOrder := fun a b => by unfold provOrder; infer_instance

/-- The rows of the exam ordered by `tazr DESC, created_at ASC`
(`List.insertionSort` is a stable sort, matching SQLite's stable ordering of
rows by rowid within equal keys). -/
def sortedNational (db : List ResultRow) (exam_id : Nat) : List RankKey :=
  List.insertionSort natOrder (rankData db exam_id)

/-- The competition-ranking loop: 1-based position `i`, current `rank`, and
`last_score` (initially `None`).  When the current score differs from
`last_score` the rank becomes `i`; ties reuse the previous rank.  Returns the
`(id, rank)` assignment in iteration order. -/
def goAssign : Nat → Nat → Option ℚ → List RankKey → List (Nat × Nat)
  | _, _, _, [] => []
  | i, rank, last, r :: rest =>
    if last ≠ some r.tazr then (r.id, i) :: goAssign (i + 1) i (some r.tazr) rest
    else (r.id, rank) :: goAssign (i + 1) rank last rest

/-- The competition-rank assignment for a list of rows, as in both the
national and the provincial pass (`rank = 0`, `last_score = None`,
`enumerate(rows, start=1)`). -/
def competitionAssign (rows : List RankKey) : List (Nat × Nat) :=
  goAssign 1 0 none rows

/-- The national `(id, rank_national)` assignment of the exam. -/
def natAssign (db : List ResultRow) (exam_id : Nat) : List (Nat × Nat) :=
  competitionAssign (sortedNational db exam_id)

/-- The provincial `(id, rank_provincial)` assignment for one province: the
province's rows of the (nationally sorted) row list, re-sorted by
`(-tazr, id)`, then competition-ranked. -/
def provAssign (db : List ResultRow) (exam_id : Nat) (province : String) :
    List (Nat × Nat) :=
  competitionAssign
    (List.insertionSort provOrder
      ((sortedNational db exam_id).filter (fun k => k.province == province)))

/-- Apply the computed rank assignments to one row: rows of the exam get
their ranks rewritten from the assignment (looked up by primary key), other
rows are untouched. -/
def applyRank (na : List (Nat × Nat)) (pa : String → List (Nat × Nat))
    (exam_id : Nat) (r : ResultRow) : ResultRow :=
  if r.exam_id = exam_id then
    { r with
      rank_national := ((na.lookup r.id).getD r.rank_national)
      rank_provincial := (((pa r.province).lookup r.id).getD r.rank_provincial) }
  else r

/-- `recalc_ranks_for_exam` on the result table. -/
def recalc_ranks_for_exam (db : List ResultRow) (exam_id : Nat) : List ResultRow :=
  db.map (applyRank (natAssign db exam_id) (provAssign db exam_id) exam_id)

/-! ### Result store (models.py lines 206–279 and 317–425) -/

/-- The duplicate check run inside `save_result`'s transaction (and, with
the same logic, by `has_exact_duplicate`): match by `exam_id + phone` when
the normalized phone is non-empty, else by
`exam_id + student_name + province`. -/
def dup_check (st : DBState) (exam_id : Nat) (name phone prov : String) : Bool :=
  if phone ≠ "" then
    (st.results.find? (fun r => r.exam_id == exam_id && r.phone == phone)).isSome
  else
    (st.results.find? (fun r =>
      r.exam_id == exam_id && r.student_name == name && r.province == prov)).isSome

/-- `has_exact_duplicate(exam_id, student_name, phone_raw, province)`:
returns the first matching existing row, or `none`. -/
def has_exact_duplicate (st : DBState) (exam_id : Nat) (student_name : String)
    (phone_raw : Option String) (province : String) : Option ResultRow :=
  let phone := normalize_phone (phone_raw.getD "")
  let name := normalize_name student_name
  let prov := pyStrip province
  if phone ≠ "" then
    st.results.find? (fun r => r.exam_id == exam_id && r.phone == phone)
  else
    st.results.find? (fun r =>
      r.exam_id == exam_id && r.student_name == name && r.province == prov)

/-- The `tazr mapping 1000..13500` step of `save_result`: the linear scale
transform of the (already rounded) score percentage, unless an explicit
override tazr value was supplied (`tazr_value = float(tazr)`). -/
def tazrValue (score_percent : ℚ) : Option ℚ → ℚ
  | none => round2 (1000 + (score_percent / 100) * (13500 - 1000))
  | some t => t

/-- The row inserted by `save_result` (with placeholder ranks 0): identity
fields are already normalized; score, tazr and the details document come
from the scoring computation. -/
def insertedRow (st : DBState) (exam_id : Nat) (name phone prov : String)
    (answers : List (String × String)) (tazr : Option ℚ) : ResultRow :=
  { id := st.next_id, exam_id := exam_id, student_name := name, phone := phone,
    province := prov, score := (computeScored st exam_id answers).score_percent,
    tazr := tazrValue (computeScored st exam_id answers).score_percent tazr,
    rank_national := 0, rank_provincial := 0,
    details_json := { per_topic := (computeScored st exam_id answers).topic_percent,
                      per_question := (computeScored st exam_id answers).details_list },
    created_at := st.now }

/-- `save_result(exam_id, student_name, phone_raw, province, answers, tazr)`:
normalize the identity, run the in-transaction duplicate check (returning
`None` and leaving the store unchanged on a duplicate), otherwise score the
submission, insert the row, commit, and recompute the exam's ranks.  The
JSON-string parsing of a string `answers` argument happens at the route
layer (`extract_answers` below); here `answers` is already a dict. -/
def save_result (st : DBState) (exam_id : Nat) (student_name phone_raw province : String)
    (answers : List (String × String)) (tazr : Option ℚ) : Option Nat × DBState :=
  let name := normalize_name student_name
  let phone := normalize_phone phone_raw
  let prov := pyStrip province
  if dup_check st exam_id name phone prov then (none, st)
  else
    let row := insertedRow st exam_id name phone prov answers tazr
    (some st.next_id,
      { questions := st.questions,
        results := recalc_ranks_for_exam (st.results ++ [row]) exam_id,
        next_id := st.next_id + 1, now := st.now + 1 })

/-- `get_result_by_id`: `SELECT * FROM results WHERE id = ?`; the parsed
`details` value of the returned row is its `details_json` document. -/
def get_result_by_id (st : DBState) (result_id : Nat) : Option ResultRow :=
  st.results.find? (fun r => r.id == result_id)

/-! ### Answers-payload guard (routes.py lines 349–364)

`submit_exam` extracts the answer dict from the `answers_json` form field:
empty or missing payloads, payloads longer than 5000 (Python `len` of the
string), payloads that fail to parse, non-dict payloads and dicts with more
than 2000 keys all degrade to the empty answer set.  `json.loads` is an
external library function, so the guard is parameterised by the parser. -/

/-- A parsed Python/JSON value, as far as the guard inspects it. -/
inductive PyValue where
  | obj (m : List (String × PyValue))
  | arr (l : List PyValue)
  | str (s : String)
  | int (n : Int)
  | float (q : ℚ)
  | bool (b : Bool)
  | null

/-- The `try: ... except: answers = {}` block of `submit_exam`; `loads`
models `json.loads` (`none` standing for a raised exception). -/
def extract_answers (loads : String → Option PyValue) (answers_json : Option String) :
    List (String × PyValue) :=
  match answers_json with
  | none => []
  | some s =>
    if s = "" then []
    else if 5000 < s.length then []
    else
      match loads s with
      | some (PyValue.obj m) => if m.length ≤ 2000 then m else []
      | _ => []

/-! ### A model of `json.loads` (Python standard library)

An executable recursive-descent parser for the RFC 8259 grammar, used to
settle the payload-size claim at a concrete valid-JSON input.  The modelled
fragment: objects, arrays, strings with the single-character escapes, strict
JSON numbers (`int` for pure integer literals, `float` otherwise), `true`,
`false`, `null`, and JSON whitespace.  Outside the fragment the parser
rejects (`none`): `\uXXXX` escapes (a Lean `Char` cannot carry the lone
surrogates Python admits) and the non-standard `NaN`/`Infinity` extensions.
Object keys are collected in encounter order; Python dicts deduplicate
repeated keys, which no input used here contains.  Recursion is fuelled by
the input length, which bounds the nesting depth. -/

/-- JSON whitespace (`ws` of RFC 8259). -/
def isJsonWs (c : Char) : Bool :=
  c = ' ' || c = '\t' || c = '\n' || c = '\r'

/-- Skip JSON whitespace. -/
def dropWs (l : List Char) : List Char := l.dropWhile isJsonWs

/-- The single-character string escapes of JSON; `\uXXXX` is outside the
modelled fragment. -/
def escapeChar (e : Char) : Option Char :=
  if e = '"' then some '"'
  else if e = '\\' then some '\\'
  else if e = '/' then some '/'
  else if e = 'b' then some '\x08'
  else if e = 'f' then some '\x0c'
  else if e = 'n' then some '\n'
  else if e = 'r' then some '\r'
  else if e = 't' then some '\t'
  else none

/-- Scan a JSON string body up to the closing quote, decoding escapes;
unescaped control characters are illegal. -/
def parseStringBody : List Char → List Char → Option (String × List Char)
  | [], _ => none
  | c :: rest, acc =>
    if c = '"' then some (String.mk acc.reverse, rest)
    else if c = '\\' then
      match rest with
      | [] => none
      | e :: rest2 =>
        match escapeChar e with
        | some d => parseStringBody rest2 (d :: acc)
        | none => none
    else if c.toNat < 0x20 then none
    else parseStringBody rest (c :: acc)

/-- Consume an expected literal tail (the `rue` of `true`, ...). -/
def stripLit : List Char → List Char → Option (List Char)
  | [], rest => some rest
  | _ :: _, [] => none
  | e :: es, c :: rest => if c = e then stripLit es rest else none

/-- Accumulate a run of decimal digits; returns (value, digit count, rest). -/
def parseDigitsAux : List Char → Nat → Nat → Nat × Nat × List Char
  | [], acc, k => (acc, k, [])
  | c :: rest, acc, k =>
    if c.isDigit then parseDigitsAux rest (acc * 10 + (c.toNat - 48)) (k + 1)
    else (acc, k, c :: rest)

/-- The optional `frac` part: absent, or a dot followed by 1+ digits. -/
def parseFrac (l : List Char) : Option (Nat × Nat × List Char) :=
  match l with
  | d :: r =>
    if d = '.' then
      match r with
      | e :: _ => if e.isDigit then some (parseDigitsAux r 0 0) else none
      | [] => none
    else some (0, 0, l)
  | [] => some (0, 0, [])

/-- The optional `exp` part: absent, or `e`/`E`, an optional sign and 1+
digits. -/
def parseExp (l : List Char) : Option (Int × List Char) :=
  match l with
  | c :: r =>
    if c = 'e' ∨ c = 'E' then
      let sr : Int × List Char :=
        match r with
        | s :: r2 => if s = '+' then (1, r2) else if s = '-' then (-1, r2) else (1, r)
        | [] => (1, [])
      match sr.2 with
      | d :: _ =>
        if d.isDigit then
          let dv := parseDigitsAux sr.2 0 0
          some (sr.1 * (dv.1 : Int), dv.2.2)
        else none
      | [] => none
    else some (0, l)
  | [] => some (0, [])

/-- A strict JSON number: optional minus, integer part without leading
zeros, optional fraction, optional exponent.  Pure integer literals parse to
Python `int`, anything with a fraction or exponent to `float`. -/
def parseNumber (l : List Char) : Option (PyValue × List Char) :=
  let nl : Bool × List Char :=
    match l with
    | c :: rest => if c = '-' then (true, rest) else (false, l)
    | [] => (false, l)
  match nl.2 with
  | [] => none
  | c :: _ =>
    if c.isDigit then
      let iv := parseDigitsAux nl.2 0 0
      if c = '0' ∧ 1 < iv.2.1 then none
      else
        match parseFrac iv.2.2 with
        | none => none
        | some (fp, fk, l3) =>
          match parseExp l3 with
          | none => none
          | some (ev, l4) =>
            if fk = 0 ∧ ev = 0 then
              some (PyValue.int (if nl.1 then -(iv.1 : Int) else (iv.1 : Int)), l4)
            else
              let mag : ℚ := ((iv.1 : ℚ) + (fp : ℚ) / (10 : ℚ) ^ fk) * (10 : ℚ) ^ ev
              some (PyValue.float (if nl.1 then -mag else mag), l4)
    else none

mutual

/-- Parse one JSON value (after skipping leading whitespace). -/
def parseValue : Nat → List Char → Option (PyValue × List Char)
  | 0, _ => none
  | fuel + 1, l =>
    match dropWs l with
    | [] => none
    | c :: rest =>
      if c = '"' then
        match parseStringBody rest [] with
        | some (s, r) => some (PyValue.str s, r)
        | none => none
      else if c = '\x7b' then
        match dropWs rest with
        | d :: r2 =>
          if d = '\x7d' then some (PyValue.obj [], r2)
          else parseMembers fuel (d :: r2) []
        | [] => none
      else if c = '[' then
        match dropWs rest with
        | d :: r2 =>
          if d = ']' then some (PyValue.arr [], r2)
          else parseItems fuel (d :: r2) []
        | [] => none
      else if c = 't' then (stripLit ['r', 'u', 'e'] rest).map (fun r => (PyValue.bool true, r))
      else if c = 'f' then (stripLit ['a', 'l', 's', 'e'] rest).map (fun r => (PyValue.bool false, r))
      else if c = 'n' then (stripLit ['u', 'l', 'l'] rest).map (fun r => (PyValue.null, r))
      else if c = '-' ∨ c.isDigit then parseNumber (c :: rest)
      else none

/-- Parse the members of a non-empty object, starting at a key. -/
def parseMembers : Nat → List Char → List (String × PyValue) →
    Option (PyValue × List Char)
  | 0, _, _ => none
  | fuel + 1, l, acc =>
    match l with
    | [] => none
    | c :: rest =>
      if c = '"' then
        match parseStringBody rest [] with
        | none => none
        | some (k, r1) =>
          match dropWs r1 with
          | [] => none
          | colon :: r2 =>
            if colon = ':' then
              match parseValue fuel r2 with
              | none => none
              | some (v, r3) =>
                match dropWs r3 with
                | [] => none
                | sep :: r4 =>
                  if sep = ',' then parseMembers fuel (dropWs r4) ((k, v) :: acc)
                  else if sep = '\x7d' then
                    some (PyValue.obj ((k, v) :: acc).reverse, r4)
                  else none
            else none
      else none

/-- Parse the items of a non-empty array, starting at a value. -/
def parseItems : Nat → List Char → List PyValue → Option (PyValue × List Char)
  | 0, _, _ => none
  | fuel + 1, l, acc =>
    match parseValue fuel l with
    | none => none
    | some (v, r1) =>
      match dropWs r1 with
      | [] => none
      | sep :: r2 =>
        if sep = ',' then parseItems fuel r2 (v :: acc)
        else if sep = ']' then some (PyValue.arr (v :: acc).reverse, r2)
        else none

end

/-- `json.loads`: parse exactly one JSON value with only trailing
whitespace. -/
def json_loads (s : String) : Option PyValue :=
  match parseValue (s.length + 1) s.data with
  | some (v, rest) => if dropWs rest = [] then some v else none
  | none => none

/-! ### Helper lemmas -/

lemma applyRank_id (na : List (Nat × Nat)) (pa : String → List (Nat × Nat))
    (e : Nat) (r : ResultRow) : (applyRank na pa e r).id = r.id := by
  unfold applyRank; split <;> rfl

lemma applyRank_exam_id (na : List (Nat × Nat)) (pa : String → List (Nat × Nat))
    (e : Nat) (r : ResultRow) : (applyRank na pa e r).exam_id = r.exam_id := by
  unfold applyRank; split <;> rfl

lemma applyRank_phone (na : List (Nat × Nat)) (pa : String → List (Nat × Nat))
    (e : Nat) (r : ResultRow) : (applyRank na pa e r).phone = r.phone := by
  unfold applyRank; split <;> rfl

lemma applyRank_projKey (na : List (Nat × Nat)) (pa : String → List (Nat × Nat))
    (e : Nat) (r : ResultRow) : projKey (applyRank na pa e r) = projKey r := by
  unfold applyRank projKey; split <;> rfl

lemma applyRank_score (na : List (Nat × Nat)) (pa : String → List (Nat × Nat))
    (e : Nat) (r : ResultRow) : (applyRank na pa e r).score = r.score := by
  unfold applyRank; split <;> rfl

lemma applyRank_tazr (na : List (Nat × Nat)) (pa : String → List (Nat × Nat))
    (e : Nat) (r : ResultRow) : (applyRank na pa e r).tazr = r.tazr := by
  unfold applyRank; split <;> rfl

lemma applyRank_details (na : List (Nat × Nat)) (pa : String → List (Nat × Nat))
    (e : Nat) (r : ResultRow) : (applyRank na pa e r).details_json = r.details_json := by
  unfold applyRank; split <;> rfl

/-- On a duplicate, `save_result` returns `None` and leaves the store
unchanged (rollback). -/
lemma save_result_dup (st : DBState) (e : Nat) (n p pr : String)
    (a : List (String × String)) (t : Option ℚ)
    (hd : dup_check st e (normalize_name n) (normalize_phone p) (pyStrip pr) = true) :
    save_result st e n p pr a t = (none, st) := by
  simp [save_result, hd]

/-- On a non-duplicate, `save_result` inserts the scored row and recomputes
the exam's ranks. -/
lemma save_result_insert (st : DBState) (e : Nat) (n p pr : String)
    (a : List (String × String)) (t : Option ℚ)
    (hd : dup_check st e (normalize_name n) (normalize_phone p) (pyStrip pr) = false) :
    save_result st e n p pr a t =
      (some st.next_id,
        { questions := st.questions,
          results := recalc_ranks_for_exam
            (st.results ++
              [insertedRow st e (normalize_name n) (normalize_phone p) (pyStrip pr) a t]) e,
          next_id := st.next_id + 1, now := st.now + 1 }) := by
  simp [save_result, hd]

/-- Expanding `recalc_ranks_for_exam` over an append. -/
lemma recalc_append (db₁ db₂ : List ResultRow) (e : Nat) :
    recalc_ranks_for_exam (db₁ ++ db₂) e =
      db₁.map (applyRank (natAssign (db₁ ++ db₂) e) (provAssign (db₁ ++ db₂) e) e) ++
      db₂.map (applyRank (natAssign (db₁ ++ db₂) e) (provAssign (db₁ ++ db₂) e) e) := by
  simp [recalc_ranks_for_exam]

/-- The scoring loop's `correct_count` counts the questions answered
correctly. -/
lemma foldl_scan_correct (a : List (String × String)) (qs : List Question) (acc : ScanAcc) :
    (qs.foldl (scanStep a) acc).correct_count =
      acc.correct_count + qs.countP (isCorrectAnswer a) := by
  induction qs generalizing acc with
  | nil => simp
  | cons q rest ih =>
    rw [List.foldl_cons, List.countP_cons, ih]
    by_cases h : isCorrectAnswer a q
    · simp [scanStep, h]; omega
    · simp [scanStep, h]

/-- The scoring loop's `wrong_count` counts the non-blank incorrect
answers. -/
lemma foldl_scan_wrong (a : List (String × String)) (qs : List Question) (acc : ScanAcc) :
    (qs.foldl (scanStep a) acc).wrong_count =
      acc.wrong_count + qs.countP (isWrongAnswer a) := by
  induction qs generalizing acc with
  | nil => simp
  | cons q rest ih =>
    rw [List.foldl_cons, List.countP_cons, ih]
    by_cases h : isCorrectAnswer a q
    · have hw : isWrongAnswer a q = false := by simp [isWrongAnswer, h]
      simp [scanStep, h, hw]
    · by_cases hy : yourAnswer a q = ""
      · have hw : isWrongAnswer a q = false := by simp [isWrongAnswer, hy]
        simp [scanStep, h, hy, hw]
      · have hw : isWrongAnswer a q = true := by simp [isWrongAnswer, h, hy]
        simp [scanStep, h, hy, hw]; omega

lemma scan_correct_eq_countP (qs : List Question) (a : List (String × String)) :
    (scanQuestions qs a).correct_count = qs.countP (isCorrectAnswer a) := by
  unfold scanQuestions; rw [foldl_scan_correct]; simp

lemma scan_wrong_eq_countP (qs : List Question) (a : List (String × String)) :
    (scanQuestions qs a).wrong_count = qs.countP (isWrongAnswer a) := by
  unfold scanQuestions; rw [foldl_scan_wrong]; simp

/-- `round2` stays within integer bounds that contain its argument. -/
lemma round2_bounds (lo hi : ℤ) (q : ℚ) (h1 : (lo : ℚ) ≤ q) (h2 : q ≤ (hi : ℚ)) :
    (lo : ℚ) ≤ round2 q ∧ round2 q ≤ (hi : ℚ) := by
  have hlo : (lo * 100 : ℤ) ≤ round (q * 100) := by
    have : round ((lo * 100 : ℤ) : ℚ) ≤ round (q * 100) := by
      rw [round_eq, round_eq]
      apply Int.floor_mono
      have : ((lo * 100 : ℤ) : ℚ) ≤ q * 100 := by
        push_cast
        nlinarith
      linarith
    rwa [round_intCast] at this
  have hhi : round (q * 100) ≤ (hi * 100 : ℤ) := by
    have : round (q * 100) ≤ round ((hi * 100 : ℤ) : ℚ) := by
      rw [round_eq, round_eq]
      apply Int.floor_mono
      have : q * 100 ≤ ((hi * 100 : ℤ) : ℚ) := by
        push_cast
        nlinarith
      linarith
    rwa [round_intCast] at this
  constructor
  · rw [round2]
    rw [le_div_iff (by norm_num : (0 : ℚ) < 100)]
    calc (lo : ℚ) * 100 = ((lo * 100 : ℤ) : ℚ) := by push_cast; ring
      _ ≤ ((round (q * 100) : ℤ) : ℚ) := by exact_mod_cast hlo
  · rw [round2]
    rw [div_le_iff (by norm_num : (0 : ℚ) < 100)]
    calc ((round (q * 100) : ℤ) : ℚ) ≤ ((hi * 100 : ℤ) : ℚ) := by exact_mod_cast hhi
      _ = (hi : ℚ) * 100 := by push_cast; ring

/-- The score percentage computed by `computeScored` lies in [0, 100]. -/
lemma computeScored_score_bounds (st : DBState) (e : Nat) (a : List (String × String)) :
    0 ≤ (computeScored st e a).score_percent ∧ (computeScored st e a).score_percent ≤ 100 := by
  simp only [computeScored]
  split
  · norm_num
  · simp only [scoreQuestions]
    split
    · rename_i htot
      have hadj0 : (0 : ℤ) ≤ adjustedCorrect (get_exam_questions st e) a :=
        le_max_right _ _
      have hadjle : adjustedCorrect (get_exam_questions st e) a ≤
          ((get_exam_questions st e).length : ℤ) := by
        unfold adjustedCorrect
        have hcc : (scanQuestions (get_exam_questions st e) a).correct_count ≤
            (get_exam_questions st e).length := by
          rw [scan_correct_eq_countP]
          exact List.countP_le_length _
        have h1 : ((scanQuestions (get_exam_questions st e) a).correct_count : ℤ) -
            (penaltyOf (get_exam_questions st e) a : ℤ) ≤
            ((get_exam_questions st e).length : ℤ) := by
          have : (0 : ℤ) ≤ (penaltyOf (get_exam_questions st e) a : ℤ) := Int.natCast_nonneg _
          have := Int.ofNat_le.mpr hcc
          omega
        exact max_le h1 (by exact_mod_cast Nat.zero_le _)
      have hq : (0 : ℚ) ≤ 100 * (adjustedCorrect (get_exam_questions st e) a : ℚ) /
          ((get_exam_questions st e).length : ℚ) := by
        apply div_nonneg
        · have : (0 : ℚ) ≤ (adjustedCorrect (get_exam_questions st e) a : ℚ) := by
            exact_mod_cast hadj0
          linarith
        · exact_mod_cast Nat.zero_le _
      have hq2 : 100 * (adjustedCorrect (get_exam_questions st e) a : ℚ) /
          ((get_exam_questions st e).length : ℚ) ≤ 100 := by
        rw [div_le_iff (by exact_mod_cast htot : (0 : ℚ) < ((get_exam_questions st e).length : ℚ))]
        have : (adjustedCorrect (get_exam_questions st e) a : ℚ) ≤
            ((get_exam_questions st e).length : ℚ) := by exact_mod_cast hadjle
        nlinarith
      have := round2_bounds 0 100 _ (by exact_mod_cast hq) (by exact_mod_cast hq2)
      constructor
      · have h := this.1; exact_mod_cast h
      · have h := this.2; exact_mod_cast h
    · norm_num

/-- Without an override, the computed tazr lies in [1000, 13500]. -/
lemma tazrValue_bounds (sp : ℚ) (h1 : 0 ≤ sp) (h2 : sp ≤ 100) :
    1000 ≤ tazrValue sp none ∧ tazrValue sp none ≤ 13500 := by
  unfold tazrValue
  have hlo : (1000 : ℚ) ≤ 1000 + sp / 100 * (13500 - 1000) := by
    have : (0 : ℚ) ≤ sp / 100 * (13500 - 1000) := by positivity
    linarith
  have hhi : 1000 + sp / 100 * (13500 - 1000) ≤ 13500 := by
    have : sp / 100 * (13500 - 1000) ≤ 12500 := by
      rw [div_mul_eq_mul_div, div_le_iff (by norm_num : (0 : ℚ) < 100)]
      nlinarith
    linarith
  have := round2_bounds 1000 13500 _ (by exact_mod_cast hlo) (by exact_mod_cast hhi)
  constructor
  · have h := this.1; exact_mod_cast h
  · have h := this.2; exact_mod_cast h

/-- Mapping a function that preserves `exam_id` and the projected rank data
over the table leaves `rankData` unchanged. -/
lemma rankData_map (f : ResultRow → ResultRow)
    (hf : ∀ r, (f r).exam_id = r.exam_id ∧ projKey (f r) = projKey r)
    (db : List ResultRow) (e : Nat) : rankData (db.map f) e = rankData db e := by
  induction db with
  | nil => rfl
  | cons r rest ih =>
    simp only [rankData, List.map_cons, List.filterMap_cons] at *
    rw [(hf r).1, (hf r).2]
    by_cases h : r.exam_id = e
    · simp only [h, if_pos rfl, ih]
    · simp only [if_neg h, ih]

/-- `recalc_ranks_for_exam` does not change the data the rank computation
reads. -/
lemma rankData_recalc (db : List ResultRow) (e e' : Nat) :
    rankData (recalc_ranks_for_exam db e') e = rankData db e := by
  unfold recalc_ranks_for_exam
  exact rankData_map _ (fun r => ⟨applyRank_exam_id _ _ _ _, applyRank_projKey _ _ _ _⟩) db e

lemma natAssign_recalc (db : List ResultRow) (e : Nat) :
    natAssign (recalc_ranks_for_exam db e) e = natAssign db e := by
  unfold natAssign sortedNational
  rw [rankData_recalc]

lemma provAssign_recalc (db : List ResultRow) (e : Nat) (p : String) :
    provAssign (recalc_ranks_for_exam db e) e p = provAssign db e p := by
  unfold provAssign sortedNational
  rw [rankData_recalc]

/-- Re-applying the same rank assignment is a no-op. -/
lemma applyRank_idem (na : List (Nat × Nat)) (pa : String → List (Nat × Nat))
    (e : Nat) (r : ResultRow) :
    applyRank na pa e (applyRank na pa e r) = applyRank na pa e r := by
  by_cases h : r.exam_id = e
  · simp only [applyRank, h, if_pos rfl]
    cases hna : na.lookup r.id <;> cases hpa : (pa r.province).lookup r.id <;>
      simp [hna, hpa]
  · simp [applyRank, h]

/-- Adjacent-rank behaviour of the competition-ranking loop: at any two
consecutive positions, an equal tazr reuses the previous rank, and a new
distinct tazr receives the 1-based position (offset by the starting index
`i`). -/
lemma goAssign_adjacent (l : List RankKey) (i rank : Nat) (last : Option ℚ)
    (j : Nat) (a b : RankKey) (ha : l[j]? = some a) (hb : l[j + 1]? = some b) :
    (b.tazr = a.tazr →
      ((goAssign i rank last l)[j + 1]?).map Prod.snd =
        ((goAssign i rank last l)[j]?).map Prod.snd) ∧
    (b.tazr ≠ a.tazr →
      ((goAssign i rank last l)[j + 1]?).map Prod.snd = some (i + (j + 1))) := by
  induction l generalizing i rank last j with
  | nil => simp at ha
  | cons r rest ih =>
    cases j with
    | zero =>
      rw [List.getElem?_cons_zero] at ha
      injection ha with ha
      subst ha
      rw [List.getElem?_cons_succ] at hb
      cases rest with
      | nil => simp at hb
      | cons s rest' =>
        rw [List.getElem?_cons_zero] at hb
        injection hb with hb
        subst hb
        by_cases hc : last ≠ some r.tazr
        · simp only [goAssign, if_pos hc]
          constructor
          · intro htie
            have hc2 : ¬ some r.tazr ≠ some s.tazr := by simp [htie]
            simp [goAssign, hc2]
          · intro hne
            have hc2 : some r.tazr ≠ some s.tazr := by simp [Ne.symm hne]
            simp [goAssign, hc2]
        · simp only [goAssign, if_neg hc]
          push_neg at hc
          constructor
          · intro htie
            have hc2 : ¬ last ≠ some s.tazr := by simp [hc, htie]
            simp [goAssign, hc2]
          · intro hne
            have hc2 : last ≠ some s.tazr := by
              rw [hc]
              simp [Ne.symm hne]
            simp [goAssign, hc2]
    | succ j' =>
      rw [List.getElem?_cons_succ] at ha hb
      by_cases hc : last ≠ some r.tazr
      · simp only [goAssign, if_pos hc, List.getElem?_cons_succ]
        have := ih (i + 1) i (some r.tazr) j' ha hb
        refine ⟨this.1, fun hne => ?_⟩
        rw [this.2 hne]
        congr 1
        omega
      · simp only [goAssign, if_neg hc, List.getElem?_cons_succ]
        have := ih (i + 1) rank last j' ha hb
        refine ⟨this.1, fun hne => ?_⟩
        rw [this.2 hne]
        congr 1
        omega

/-- `round2` is idempotent: two-decimal values are its fixed points. -/
lemma round2_idem (q : ℚ) : round2 (round2 q) = round2 q := by
  unfold round2
  rw [div_mul_cancel₀ _ (by norm_num : (100 : ℚ) ≠ 0), round_intCast]

lemma round2_zero : round2 0 = 0 := by
  unfold round2
  norm_num

/-- The score percentage produced by `computeScored` is already rounded to
two decimals. -/
lemma computeScored_round2_fixed (st : DBState) (e : Nat) (a : List (String × String)) :
    round2 (computeScored st e a).score_percent = (computeScored st e a).score_percent := by
  simp only [computeScored]
  split
  · exact round2_zero
  · simp only [scoreQuestions]
    split
    · exact round2_idem _
    · exact round2_zero

lemma tazrValue_zero : tazrValue 0 none = 1000 := by
  unfold tazrValue
  norm_num [round2]

/-! ### Concrete example data used in the claims -/

/-- An empty store (no exams taken yet, AUTOINCREMENT at 1). -/
def emptyState : DBState := { questions := [], results := [], next_id := 1, now := 0 }

/-- A question of exam 1 with correct option `A` and blank topic. -/
def exQ (i : Nat) : Question :=
  { id := i, exam_id := 1, text := "متن", option_a := "", option_b := "", option_c := "",
    option_d := "", correct := "A", topic := "" }

/-- Ten questions of exam 1. -/
def exQs : List Question :=
  [exQ 1, exQ 2, exQ 3, exQ 4, exQ 5, exQ 6, exQ 7, exQ 8, exQ 9, exQ 10]

/-- An answer map answering 6 questions correctly, 3 wrongly, one blank. -/
def exAns : List (String × String) :=
  [("1", "A"), ("2", "A"), ("3", "A"), ("4", "A"), ("5", "A"), ("6", "A"),
   ("7", "B"), ("8", "B"), ("9", "B")]

/-- The store holding the ten-question exam and no results. -/
def exState : DBState := { questions := exQs, results := [], next_id := 1, now := 0 }

/-- A result row of exam 1 with a given id, tazr and timestamp. -/
def exRow (i : Nat) (t : ℚ) (c : Nat) : ResultRow :=
  { id := i, exam_id := 1, student_name := "نام", phone := toString i, province := "تهران",
    score := 0, tazr := t, rank_national := 0, rank_provincial := 0,
    details_json := { per_topic := [], per_question := [] }, created_at := c }

/-- Three results of exam 1 with tazr values 90, 90, 80 (submission order). -/
def exRanked : List ResultRow := [exRow 1 90 1, exRow 2 90 2, exRow 3 80 3]

/-- A predicate that only reads fields preserved by `applyRank` finds
nothing in the reranked old rows if it found nothing in the old rows. -/
lemma find_map_none (db : List ResultRow) (p : ResultRow → Bool)
    (na : List (Nat × Nat)) (pa : String → List (Nat × Nat)) (e' : Nat)
    (hp : ∀ r, p (applyRank na pa e' r) = p r)
    (hfind : db.find? p = none) :
    (db.map (applyRank na pa e')).find? p = none := by
  rw [List.find?_eq_none] at *
  intro x hx
  obtain ⟨r, hr, rfl⟩ := List.mem_map.mp hx
  rw [hp r]
  exact hfind r hr

/-- After a fresh insert, the `exam_id + phone` lookup finds exactly the
(reranked) new row. -/
lemma find_phone_after_insert (st : DBState) (e : Nat) (name phone prov : String)
    (a : List (String × String)) (t : Option ℚ)
    (hfind : st.results.find? (fun r => r.exam_id == e && r.phone == phone) = none) :
    (recalc_ranks_for_exam (st.results ++ [insertedRow st e name phone prov a t]) e).find?
        (fun r => r.exam_id == e && r.phone == phone) =
      some (applyRank
        (natAssign (st.results ++ [insertedRow st e name phone prov a t]) e)
        (provAssign (st.results ++ [insertedRow st e name phone prov a t]) e) e
        (insertedRow st e name phone prov a t)) := by
  rw [recalc_append, List.find?_append]
  rw [find_map_none st.results _ _ _ e
    (fun r => by rw [applyRank_exam_id, applyRank_phone]) hfind]
  rw [Option.none_or, List.map_cons, List.map_nil]
  rw [List.find?_cons_of_pos]
  rw [applyRank_exam_id, applyRank_phone]
  simp [insertedRow]

/-- After a fresh insert, the primary-key lookup finds exactly the
(reranked) new row. -/
lemma find_id_after_insert (st : DBState) (e : Nat) (name phone prov : String)
    (a : List (String × String)) (t : Option ℚ)
    (hfresh : ∀ r ∈ st.results, r.id ≠ st.next_id) :
    (recalc_ranks_for_exam (st.results ++ [insertedRow st e name phone prov a t]) e).find?
        (fun r => r.id == st.next_id) =
      some (applyRank
        (natAssign (st.results ++ [insertedRow st e name phone prov a t]) e)
        (provAssign (st.results ++ [insertedRow st e name phone prov a t]) e) e
        (insertedRow st e name phone prov a t)) := by
  rw [recalc_append, List.find?_append]
  rw [find_map_none st.results _ _ _ e (fun r => by rw [applyRank_id])
    (by rw [List.find?_eq_none]; intro r hr; simp [hfresh r hr])]
  rw [Option.none_or, List.map_cons, List.map_nil]
  rw [List.find?_cons_of_pos]
  rw [applyRank_id]
  simp [insertedRow]

/-! ### The claims -/

/-- Claim C2: scoring computes `penalty = wrongCount // 3` (integer
division) and `adjustedCorrect = max(correctCount - penalty, 0)`, where a
wrong answer is a non-blank submitted letter differing from the question's
correct letter; for a 10-question exam with 6 correct, 3 wrong and 1 blank
answer the result has penalty 1, adjustedCorrect 5, scorePercent 50.0 and
tazr 7250.0. -/
theorem C2_penalty_scoring (qs : List Question) (ans : List (String × String)) :
    penaltyOf qs ans = qs.countP (isWrongAnswer ans) / 3 ∧
    adjustedCorrect qs ans =
      max ((qs.countP (isCorrectAnswer ans) : ℤ) -
        ((qs.countP (isWrongAnswer ans) / 3 : ℕ) : ℤ)) 0 ∧
    (scanQuestions exQs exAns).correct_count = 6 ∧
    (scanQuestions exQs exAns).wrong_count = 3 ∧
    penaltyOf exQs exAns = 1 ∧
    adjustedCorrect exQs exAns = 5 ∧
    ((save_result exState 1 "علی" "0912" "تهران" exAns none).2.results.map
      (fun r => (r.score, r.tazr))) = [(50, 7250)] := by
  refine ⟨?_, ?_, by decide, by decide, by decide, by decide, by with_unfolding_all rfl⟩
  · unfold penaltyOf
    rw [scan_wrong_eq_countP]
  · unfold adjustedCorrect penaltyOf
    rw [scan_correct_eq_countP, scan_wrong_eq_countP]

/-- Claim C5 (code bug): `is_persian_name_strict` is documented to reject
every digit, but its character class is the whole Arabic block U+0600–U+06FF,
which contains the Extended Arabic-Indic digits U+06F0–U+06F9: the all-digit
string `۱۲۳` is accepted. -/
theorem C5_digit_string_accepted :
    is_persian_name_strict (String.mk ['۱', '۲', '۳']) = true ∧
    (String.mk ['۱', '۲', '۳']).data.all
      (fun c => 0x6F0 ≤ c.toNat && c.toNat ≤ 0x6F9) = true := by
  constructor
  · decide
  · decide

/-- Claim C7: `recalc_ranks_for_exam` is idempotent — recomputing the ranks
twice in a row with no results added in between produces exactly the same
rank assignments (indeed the same result table) as recomputing them once. -/
theorem C7_recalc_idempotent (db : List ResultRow) (e : Nat) :
    recalc_ranks_for_exam (recalc_ranks_for_exam db e) e = recalc_ranks_for_exam db e := by
  have hna := natAssign_recalc db e
  have hpa : provAssign (recalc_ranks_for_exam db e) e = provAssign db e := by
    funext p
    exact provAssign_recalc db e p
  calc recalc_ranks_for_exam (recalc_ranks_for_exam db e) e
      = (recalc_ranks_for_exam db e).map
          (applyRank (natAssign (recalc_ranks_for_exam db e) e)
            (provAssign (recalc_ranks_for_exam db e) e) e) := rfl
    _ = (db.map (applyRank (natAssign db e) (provAssign db e) e)).map
          (applyRank (natAssign db e) (provAssign db e) e) := by
        rw [hna, hpa]
        rfl
    _ = db.map (fun r =>
          applyRank (natAssign db e) (provAssign db e) e
            (applyRank (natAssign db e) (provAssign db e) e r)) := by
        rw [List.map_map]
        rfl
    _ = db.map (applyRank (natAssign db e) (provAssign db e) e) := by
        apply List.map_congr_left
        intro r _
        exact applyRank_idem _ _ _ _
    _ = recalc_ranks_for_exam db e := rfl

/-- Claim C3: the rank recomputation orders results by tazr descending then
created_at ascending and assigns competition ("1224") ranks: a result with
the same tazr as its predecessor reuses the predecessor's rank, a result
with a new distinct tazr gets its 1-based position; for tazr values
[90, 90, 80] the national ranks are [1, 1, 3]. -/
theorem C3_competition_ranks (db : List ResultRow) (e : Nat) (j : Nat) (a b : RankKey)
    (ha : (sortedNational db e)[j]? = some a)
    (hb : (sortedNational db e)[j + 1]? = some b) :
    List.Sorted natOrder (sortedNational db e) ∧
    (b.tazr = a.tazr →
      ((natAssign db e)[j + 1]?).map Prod.snd = ((natAssign db e)[j]?).map Prod.snd) ∧
    (b.tazr ≠ a.tazr →
      ((natAssign db e)[j + 1]?).map Prod.snd = some (j + 2)) ∧
    ((recalc_ranks_for_exam exRanked 1).map (fun r => r.rank_national) = [1, 1, 3]) := by
  refine ⟨?_, ?_, ?_, by with_unfolding_all rfl⟩
  · exact List.sorted_insertionSort natOrder (rankData db e)
  · exact (goAssign_adjacent (sortedNational db e) 1 0 none j a b ha hb).1
  · intro hne
    have h := (goAssign_adjacent (sortedNational db e) 1 0 none j a b ha hb).2 hne
    rw [show 1 + (j + 1) = j + 2 by omega] at h
    exact h

/-- Witness for C3 at the [90, 90, 80] data: the third result's tazr 80
differs from the second's 90, so its national rank is its position, 3. -/
theorem C3_competition_ranks_witness :
    ((natAssign exRanked 1)[2]?).map Prod.snd = some 3 :=
  (C3_competition_ranks exRanked 1 1
    { id := 2, tazr := 90, created_at := 2, province := "تهران" }
    { id := 3, tazr := 80, created_at := 3, province := "تهران" }
    (by with_unfolding_all rfl) (by with_unfolding_all rfl)).2.2.1
    (by norm_num)

/-- Claim C10: when the normalized phone is non-empty, the duplicate
decision depends only on (exam_id, phone): submissions differing only in
student name and province get the same duplicate-vs-new outcome. -/
theorem C10_dedup_only_phone (st : DBState) (e : Nat) (n1 n2 p pr1 pr2 : String)
    (a : List (String × String)) (t : Option ℚ)
    (hp : normalize_phone p ≠ "") :
    has_exact_duplicate st e n1 (some p) pr1 = has_exact_duplicate st e n2 (some p) pr2 ∧
    (save_result st e n1 p pr1 a t).1 = (save_result st e n2 p pr2 a t).1 := by
  constructor
  · simp [has_exact_duplicate, hp]
  · have hdup : ∀ n pr, dup_check st e n (normalize_phone p) pr =
        (st.results.find? (fun r => r.exam_id == e && r.phone == normalize_phone p)).isSome := by
      intro n pr
      simp [dup_check, hp]
    simp only [save_result, hdup]
    by_cases h : (st.results.find? (fun r => r.exam_id == e && r.phone == normalize_phone p)).isSome <;>
      simp [h]

/-- Witness for C10: same phone, different names and provinces, same
outcome on the empty store. -/
theorem C10_dedup_only_phone_witness :
    has_exact_duplicate emptyState 2 "علی" (some "0912") "تهران" =
      has_exact_duplicate emptyState 2 "رضا" (some "0912") "قم" ∧
    (save_result emptyState 2 "علی" "0912" "تهران" [] none).1 =
      (save_result emptyState 2 "رضا" "0912" "قم" [] none).1 :=
  C10_dedup_only_phone emptyState 2 "علی" "رضا" "0912" "تهران" "قم" [] none (by decide)

/-- Claim C6 (amended: the size cap is 5000 characters of the decoded
payload string, not 5000 raw bytes): oversized payloads, non-mapping
payloads, unparseable payloads and mappings with more than 2000 keys all
degrade to the empty answer set instead of an error. -/
theorem C6_payload_guard (loads : String → Option PyValue) (s : String) :
    (5000 < s.length → extract_answers loads (some s) = []) ∧
    (∀ m, loads s = some (PyValue.obj m) → 2000 < m.length →
      extract_answers loads (some s) = []) ∧
    (loads s = none → extract_answers loads (some s) = []) ∧
    (∀ v, loads s = some v → (∀ m, v ≠ PyValue.obj m) →
      extract_answers loads (some s) = []) := by
  unfold extract_answers
  by_cases hs : s = ""
  · simp [hs]
  · simp only [if_neg hs]
    by_cases hlen : 5000 < s.length
    · simp [hlen]
    · simp only [if_neg hlen]
      refine ⟨fun h => absurd h hlen, ?_, ?_, ?_⟩
      · intro m hm hcount
        rw [hm]
        simp [Nat.not_le.mpr hcount]
      · intro h
        rw [h]
      · intro v hv hne
        rw [hv]
        cases v with
        | obj m => exact absurd rfl (hne m)
        | arr l => rfl
        | str s => rfl
        | int n => rfl
        | float q => rfl
        | bool b => rfl
        | null => rfl

/-- A parser stub that always fails (an exception in `json.loads`). -/
def loadsFail : String → Option PyValue := fun _ => none

/-- A 5001-character payload. -/
def longPayload : String := String.mk (List.replicate 5001 'a')

lemma longPayload_length : longPayload.length = 5001 :=
  List.length_replicate 5001 'a'

/-- Witness for C6: a 5001-character payload degrades to the empty answer
set. -/
theorem C6_payload_guard_witness :
    extract_answers loadsFail (some longPayload) = [] :=
  (C6_payload_guard loadsFail longPayload).1
    (by rw [longPayload_length]; norm_num)

/-- The four-byte character U+10000 (one UTF-8 code point, four bytes). -/
def wideChar : Char := Char.ofNat 0x10000

/-- The 1250-character value string of the oversized payload. -/
def wideStr : String := String.mk (List.replicate 1250 wideChar)

/-- A *valid JSON* payload: the object mapping key `1` to a string of 1250
copies of U+10000, i.e. 1258 characters but 5008 raw UTF-8 bytes. -/
def jsonWidePayload : String :=
  String.mk (['\x7b', '"', '1', '"', ':', '"'] ++
    (List.replicate 1250 wideChar ++ ['"', '\x7d']))

lemma utf8ByteSize_go_replicate (n : Nat) (c : Char) :
    String.utf8ByteSize.go (List.replicate n c) = n * c.utf8Size := by
  induction n with
  | zero => simp [String.utf8ByteSize.go]
  | succ k ih =>
    rw [List.replicate_succ]
    show String.utf8ByteSize.go (List.replicate k c) + c.utf8Size = (k + 1) * c.utf8Size
    rw [ih]
    ring

lemma utf8ByteSize_go_append (l1 l2 : List Char) :
    String.utf8ByteSize.go (l1 ++ l2) =
      String.utf8ByteSize.go l1 + String.utf8ByteSize.go l2 := by
  induction l1 with
  | nil => simp [String.utf8ByteSize.go]
  | cons c cs ih =>
    show String.utf8ByteSize.go (cs ++ l2) + c.utf8Size =
      String.utf8ByteSize.go (c :: cs) + String.utf8ByteSize.go l2
    rw [ih]
    show _ = String.utf8ByteSize.go cs + c.utf8Size + String.utf8ByteSize.go l2
    omega

lemma jsonWidePayload_utf8ByteSize : jsonWidePayload.utf8ByteSize = 5008 := by
  show String.utf8ByteSize.go (['\x7b', '"', '1', '"', ':', '"'] ++
    (List.replicate 1250 wideChar ++ ['"', '\x7d'])) = 5008
  rw [utf8ByteSize_go_append, utf8ByteSize_go_append, utf8ByteSize_go_replicate]
  have h4 : wideChar.utf8Size = 4 := by decide
  rw [h4]
  decide

lemma jsonWidePayload_length : jsonWidePayload.length = 1258 := by
  show (['\x7b', '"', '1', '"', ':', '"'] ++
    (List.replicate 1250 wideChar ++ ['"', '\x7d'])).length = 1258
  simp

set_option maxRecDepth 40000 in
/-- The modelled `json.loads` parses the oversized payload to the expected
one-key mapping (the payload is plain valid JSON: an object, a short key, an
escape-free string value). -/
lemma json_loads_jsonWidePayload :
    json_loads jsonWidePayload = some (PyValue.obj [("1", PyValue.str wideStr)]) := by
  with_unfolding_all rfl

/-- Reduction of the payload guard on a present payload. -/
lemma extract_answers_some (loads : String → Option PyValue) (s : String) :
    extract_answers loads (some s) =
      if s = "" then []
      else if 5000 < s.length then []
      else
        match loads s with
        | some (PyValue.obj m) => if m.length ≤ 2000 then m else []
        | _ => [] := rfl

/-- Counterexample for C6 as stated: a valid-JSON payload whose raw UTF-8
size exceeds 5000 bytes (5008) but whose character count (1258) does not is
*not* rejected — `json.loads` parses it to a one-key mapping, which becomes
the answer set, so the submission does not proceed with an empty answer set.
The code compares `len(answers_json)` (characters), not bytes. -/
theorem C6_bytes_counterexample :
    5000 < jsonWidePayload.utf8ByteSize ∧
    jsonWidePayload.length ≤ 5000 ∧
    json_loads jsonWidePayload = some (PyValue.obj [("1", PyValue.str wideStr)]) ∧
    extract_answers json_loads (some jsonWidePayload) = [("1", PyValue.str wideStr)] := by
  have hne : jsonWidePayload ≠ "" := by
    intro h
    have h2 := congrArg String.length h
    rw [jsonWidePayload_length] at h2
    exact absurd h2 (by decide)
  refine ⟨by rw [jsonWidePayload_utf8ByteSize]; norm_num,
    by rw [jsonWidePayload_length]; norm_num, json_loads_jsonWidePayload, ?_⟩
  rw [extract_answers_some, if_neg hne,
    if_neg (by rw [jsonWidePayload_length]; norm_num : ¬ 5000 < jsonWidePayload.length),
    json_loads_jsonWidePayload]
  simp

/-- Claim C1: once a result for (exam_id, phone) exists (non-empty
normalized phone), a second submission with the same exam id and phone is
rejected: `save_result` returns `None` with the store unchanged (no new row,
the existing row untouched), and `has_exact_duplicate` hands the caller the
first result's id for the redirect. -/
theorem C1_duplicate_second_submission (st : DBState) (e : Nat) (n p pr : String)
    (a a2 : List (String × String))
    (hp : normalize_phone p ≠ "")
    (hd : dup_check st e (normalize_name n) (normalize_phone p) (pyStrip pr) = false) :
    (save_result st e n p pr a none).1 = some st.next_id ∧
    save_result (save_result st e n p pr a none).2 e n p pr a2 none =
      (none, (save_result st e n p pr a none).2) ∧
    ((has_exact_duplicate (save_result st e n p pr a none).2 e n (some p) pr).map
      (fun r => r.id)) = some st.next_id := by
  have hfind0 : st.results.find? (fun r => r.exam_id == e && r.phone == normalize_phone p) =
      none := by
    rw [dup_check, if_pos hp] at hd
    exact Option.not_isSome_iff_eq_none.mp (by simp [hd])
  have hkey := find_phone_after_insert st e (normalize_name n) (normalize_phone p)
    (pyStrip pr) a none hfind0
  rw [save_result_insert st e n p pr a none hd]
  refine ⟨rfl, ?_, ?_⟩
  · apply save_result_dup
    rw [dup_check, if_pos hp]
    show ((recalc_ranks_for_exam
      (st.results ++ [insertedRow st e (normalize_name n) (normalize_phone p) (pyStrip pr) a none]) e).find?
        (fun r => r.exam_id == e && r.phone == normalize_phone p)).isSome = true
    rw [hkey]
    rfl
  · rw [has_exact_duplicate]
    simp only [Option.getD_some]
    rw [if_pos hp]
    show ((recalc_ranks_for_exam
      (st.results ++ [insertedRow st e (normalize_name n) (normalize_phone p) (pyStrip pr) a none]) e).find?
        (fun r => r.exam_id == e && r.phone == normalize_phone p)).map (fun r => r.id) =
      some st.next_id
    rw [hkey, Option.map_some', applyRank_id]
    rfl

/-- Witness for C1: submit to the empty store, then submit again with the
same exam and phone. -/
theorem C1_duplicate_second_submission_witness :
    (save_result emptyState 1 "علی" "0912" "تهران" [] none).1 = some emptyState.next_id ∧
    save_result (save_result emptyState 1 "علی" "0912" "تهران" [] none).2 1 "علی" "0912" "تهران" [] none =
      (none, (save_result emptyState 1 "علی" "0912" "تهران" [] none).2) ∧
    ((has_exact_duplicate (save_result emptyState 1 "علی" "0912" "تهران" [] none).2 1 "علی"
      (some "0912") "تهران").map (fun r => r.id)) = some emptyState.next_id :=
  C1_duplicate_second_submission emptyState 1 "علی" "0912" "تهران" [] []
    (by decide) (by decide)

/-- Claim C4: an exam with zero questions is a defined edge case, not an
error: the submission succeeds and the stored result has scorePercent 0.0,
tazr 1000.0 (the scale floor) and empty per-topic and per-question detail
maps. -/
theorem C4_zero_questions (st : DBState) (e : Nat) (n p pr : String)
    (a : List (String × String))
    (hq : get_exam_questions st e = [])
    (hd : dup_check st e (normalize_name n) (normalize_phone p) (pyStrip pr) = false) :
    (save_result st e n p pr a none).1 = some st.next_id ∧
    ((save_result st e n p pr a none).2.results.getLast?).map
      (fun r => (r.score, r.tazr, r.details_json)) =
      some (0, 1000, { per_topic := [], per_question := [] }) := by
  rw [save_result_insert st e n p pr a none hd]
  refine ⟨rfl, ?_⟩
  show ((recalc_ranks_for_exam
      (st.results ++ [insertedRow st e (normalize_name n) (normalize_phone p) (pyStrip pr) a none]) e).getLast?).map
      (fun r => (r.score, r.tazr, r.details_json)) =
    some (0, 1000, { per_topic := [], per_question := [] })
  rw [recalc_append, List.map_cons, List.map_nil, List.getLast?_concat, Option.map_some']
  rw [applyRank_score, applyRank_tazr, applyRank_details]
  have hsc : computeScored st e a =
      { score_percent := 0, topic_percent := [], details_list := [] } := by
    rw [computeScored, hq]
    rfl
  simp only [insertedRow, hsc]
  rw [tazrValue_zero]

/-- Witness for C4: submitting to an exam with no questions on the empty
store. -/
theorem C4_zero_questions_witness :
    (save_result emptyState 3 "علی" "0912" "تهران" [] none).1 = some emptyState.next_id ∧
    ((save_result emptyState 3 "علی" "0912" "تهران" [] none).2.results.getLast?).map
      (fun r => (r.score, r.tazr, r.details_json)) =
      some (0, 1000, { per_topic := [], per_question := [] }) :=
  C4_zero_questions emptyState 3 "علی" "0912" "تهران" [] (by decide) (by decide)

/-- Counterexample for C9 as stated: `save_result` with an explicit override
tazr value stores `float(tazr)` unchanged — the override 20000 lands outside
the 1000–13500 scale, so the invariant does not cover override writes. -/
theorem C9_override_counterexample :
    ((save_result emptyState 1 "علی" "0912" "تهران" [] (some 20000)).2.results.map
      (fun r => r.tazr)) = [20000] ∧ ¬ ((20000 : ℚ) ≤ 13500) := by
  constructor
  · with_unfolding_all rfl
  · norm_num

/-- Claim C9 (amended: the invariant holds for every result created without
an explicit override; an override stores `float(tazr)` as-is and bypasses
both the bounds and the rounding): rows written by `save_result` with
`tazr=None` satisfy 0 ≤ score ≤ 100 and 1000 ≤ tazr ≤ 13500, both already
rounded to two decimals (fixed points of `round2`). -/
theorem C9_score_tazr_bounds (st : DBState) (e : Nat) (n p pr : String)
    (a : List (String × String))
    (hd : dup_check st e (normalize_name n) (normalize_phone p) (pyStrip pr) = false) :
    ∀ r, (save_result st e n p pr a none).2.results.getLast? = some r →
      0 ≤ r.score ∧ r.score ≤ 100 ∧ round2 r.score = r.score ∧
      1000 ≤ r.tazr ∧ r.tazr ≤ 13500 ∧ round2 r.tazr = r.tazr := by
  rw [save_result_insert st e n p pr a none hd]
  intro r hr
  have hr2 : (recalc_ranks_for_exam
      (st.results ++ [insertedRow st e (normalize_name n) (normalize_phone p) (pyStrip pr) a none])
      e).getLast? = some r := hr
  rw [recalc_append, List.map_cons, List.map_nil, List.getLast?_concat] at hr2
  injection hr2 with hr2
  subst hr2
  rw [applyRank_score, applyRank_tazr]
  have hb := computeScored_score_bounds st e a
  have hfix := computeScored_round2_fixed st e a
  have htz := tazrValue_bounds (computeScored st e a).score_percent hb.1 hb.2
  have htzfix : round2 (tazrValue (computeScored st e a).score_percent none) =
      tazrValue (computeScored st e a).score_percent none := by
    rw [tazrValue]
    exact round2_idem _
  exact ⟨hb.1, hb.2, hfix, htz.1, htz.2, htzfix⟩

/-- Witness for C9: the zero-question submission stores score 0 and tazr
1000, inside the bounds and rounded. -/
theorem C9_score_tazr_bounds_witness :
    0 ≤ (0 : ℚ) ∧ (0 : ℚ) ≤ 100 ∧ round2 (0 : ℚ) = 0 ∧
    (1000 : ℚ) ≤ 1000 ∧ (1000 : ℚ) ≤ 13500 ∧ round2 (1000 : ℚ) = 1000 := by
  have h := C9_score_tazr_bounds emptyState 4 "علی" "0912" "تهران" [] (by decide)
    { id := 1, exam_id := 4, student_name := "علی", phone := "0912", province := "تهران",
      score := 0, tazr := 1000, rank_national := 1, rank_provincial := 1,
      details_json := { per_topic := [], per_question := [] }, created_at := 0 }
    (by with_unfolding_all rfl)
  exact h

/-- Claim C8: the structured details document written by `save_result`
round-trips: reading the result back by id yields exactly the stored
`{per_topic, per_question}` document. -/
theorem C8_details_roundtrip (st : DBState) (e : Nat) (n p pr : String)
    (a : List (String × String))
    (hd : dup_check st e (normalize_name n) (normalize_phone p) (pyStrip pr) = false)
    (hfresh : ∀ r ∈ st.results, r.id ≠ st.next_id) :
    (get_result_by_id (save_result st e n p pr a none).2 st.next_id).map
      (fun r => r.details_json) =
      some { per_topic := (computeScored st e a).topic_percent,
             per_question := (computeScored st e a).details_list } := by
  rw [save_result_insert st e n p pr a none hd]
  rw [get_result_by_id]
  show ((recalc_ranks_for_exam
      (st.results ++ [insertedRow st e (normalize_name n) (normalize_phone p) (pyStrip pr) a none]) e).find?
      (fun r => r.id == st.next_id)).map (fun r => r.details_json) =
    some { per_topic := (computeScored st e a).topic_percent,
           per_question := (computeScored st e a).details_list }
  rw [find_id_after_insert st e (normalize_name n) (normalize_phone p) (pyStrip pr) a none hfresh]
  rw [Option.map_some', applyRank_details]
  rfl

/-- Witness for C8: the ten-question submission's details document is read
back unchanged. -/
theorem C8_details_roundtrip_witness :
    (get_result_by_id (save_result exState 1 "علی" "0912" "تهران" exAns none).2
      exState.next_id).map (fun r => r.details_json) =
      some { per_topic := (computeScored exState 1 exAns).topic_percent,
             per_question := (computeScored exState 1 exAns).details_list } :=
  C8_details_roundtrip exState 1 "علی" "0912" "تهران" exAns (by decide) (by simp [exState])

end ExamSystem

